import Mathlib

/-!
Verification of the MockClient chat application core against its
natural-language specification.

The TypeScript source is shallowly embedded: each pure computation becomes a
Lean function, and each stateful / effectful routine becomes an explicit
state-passing function that additionally returns the trace of store
operations it issued, in issue order.  The JavaScript runtime is
single-threaded and event-driven, so "concurrent" calls are modelled as
interleavings of atomic synchronous segments: a segment runs without
suspension until its next `await`.  Trace order models wall-clock order, so
the "timestamp" a store operation records is modelled by its index in the
trace.

The file is organised as: all definitions (the embedding), then all
theorems (helper lemmas and the claim theorems).
-/

deriving instance DecidableEq for Except

namespace MockClient

/-! ## Model Stream Client (src/lib/ollama.ts, `sendStreamingChatMessage`)

The wire format is newline-delimited JSON.  A complete line is abstracted as:
* `junk` — a line `JSON.parse` rejects (the `SyntaxError` branch);
* `obj content err` — a line that parses to an object whose
  `message.content` field is `content` (absent = `none`) and whose `error`
  field is `err` (absent = `none`).
JavaScript truthiness is preserved: an empty-string `content` does not fire
the callback (`if (data.message?.content)`), and an empty-string `error`
does not abort (`if (data.error)`). -/

inductive Line where
  | junk : Line
  | obj (content : Option String) (err : Option String) : Line
deriving DecidableEq, Repr

/-- Chunks a parsed line delivers to the callback: the `content` field when
present and truthy, mirroring `if (data.message?.content) onChunk(...)`. -/
def Line.chunks : Line → List String
  | .junk => []
  | .obj c _ =>
    match c with
    | some s => if s = "" then [] else [s]
    | none => []

/-- Fatal error a parsed line raises after delivering its chunk, mirroring
`if (data.error) throw new Error(data.error)` (checked after the content). -/
def Line.fatal : Line → Option String
  | .junk => none
  | .obj _ e =>
    match e with
    | some s => if s = "" then none else some s
    | none => none

/-- The per-line loop of `sendStreamingChatMessage` (ollama.ts lines 92-110)
over the complete lines of the stream.  Returns the callback invocations in
order, paired with `some e` when a line carried a truthy `error` field (the
rethrown abort) and `none` on clean completion.  A `junk` line only logs a
warning and processing continues. -/
def processLines : List Line → List String × Option String
  | [] => ([], none)
  | l :: ls =>
    match l.fatal with
    | some e => (l.chunks, some e)
    | none =>
      let rest := processLines ls
      (l.chunks ++ rest.1, rest.2)

/-- An HTTP response from the model endpoint, as `sendStreamingChatMessage`
observes it: `fetch`'s `response.ok` status flag, the numeric status, the
body as text (read only on failure), and the body as a line stream (read
only on success). -/
structure HttpResponse where
  ok : Bool
  status : Nat
  bodyText : String
  lines : List Line

/-- Shallow embedding of `sendStreamingChatMessage` (ollama.ts lines 50-116)
after the request resolves: on a non-ok status it throws
`Ollama API error (status): body` before any read of the stream, so the
callback is never invoked; otherwise it runs the line loop.  The first
component is the list of callback invocations, the second the error the
function rethrows (`none` = normal return). -/
def sendStreamingChatMessage (r : HttpResponse) : List String × Option String :=
  if r.ok then processLines r.lines
  else ([], some ("Ollama API error (" ++ toString r.status ++ "): " ++ r.bodyText))

/-- Chunks a list of lines delivers when none of them is fatal. -/
def linesChunks (ls : List Line) : List String := ls.flatMap Line.chunks

/-! ## Session Writer (src/lib/chatService.ts, class `SessionWriter`)

The writer's fields are embedded directly.  The `sessionCreating` promise is
identified by a numeric id (`nextPromiseId` is the id supply); `createCalls`
counts the `createSession` store calls the writer has issued, i.e. the
session rows created on its behalf.  `ensureSession` (lines 99-109) contains
no `await` before it returns the promise, so on the single-threaded runtime
its whole body is one atomic segment, embedded as one step.  The `.then`
continuation that records the created id runs when the creation round trip
fulfils; a rejection runs no continuation, so it is embedded as the identity
on the writer. -/

structure WriterState where
  sessionId : Option String
  sessionCreating : Option Nat
  nextPromiseId : Nat
  createCalls : Nat
  messageCount : Nat
  userId : String
  personaSettings : String
  title : String
deriving DecidableEq, Repr

/-- The `SessionWriter` constructor (chatService.ts lines 85-89). -/
def freshWriter (userId personaSettings title : String) : WriterState :=
  { sessionId := none, sessionCreating := none, nextPromiseId := 0,
    createCalls := 0, messageCount := 0,
    userId := userId, personaSettings := personaSettings, title := title }

/-- The `setExistingSession` resume path (chatService.ts lines 92-95). -/
def setExistingSession (st : WriterState) (sid : String) (count : Nat) :
    WriterState :=
  { st with sessionId := some sid, messageCount := count }

/-- What a caller of `ensureSession` holds when the synchronous segment
returns: either the already-known session id, or the in-flight creation
promise (identified by id) it will await. -/
inductive EnsureResult where
  | resolved (sid : String)
  | awaiting (promiseId : Nat)
deriving DecidableEq, Repr

/-- Shallow embedding of `ensureSession` (chatService.ts lines 99-109): if
the session id is known return it; else if a creation is already in flight
return that promise; else issue the single `createSession` call, store the
new promise under `sessionCreating`, and return it. -/
def ensureSession (st : WriterState) : WriterState × EnsureResult :=
  match st.sessionId with
  | some sid => (st, .resolved sid)
  | none =>
    match st.sessionCreating with
    | some p => (st, .awaiting p)
    | none =>
      let p := st.nextPromiseId
      ({ st with sessionCreating := some p, nextPromiseId := p + 1,
                 createCalls := st.createCalls + 1 },
       .awaiting p)

/-- The creation round trip resolves.  On fulfilment the `.then` continuation
(chatService.ts lines 103-106) records the store-assigned id; on rejection no
continuation runs, so the writer is unchanged — in particular
`sessionCreating` is never cleared. -/
def settleCreation (st : WriterState) (outcome : Except String String) :
    WriterState :=
  match outcome with
  | .ok sid => { st with sessionId := some sid }
  | .error _ => st

/-- The atomic segments that touch the writer: the synchronous prologue of
`ensureSession` (run at the start of every `save` and `saveInitialBrief`),
and the resolution of the pending creation promise.  Any overlap of calls is
some interleaving of these. -/
inductive WriterEvent where
  | ensure
  | settle (outcome : Except String String)

def stepWriter (st : WriterState) : WriterEvent → WriterState
  | .ensure => (ensureSession st).1
  | .settle o => settleCreation st o

def runWriter (st : WriterState) (es : List WriterEvent) : WriterState :=
  es.foldl stepWriter st

/-- Invariant tying the creation-call count to the in-flight marker: a
writer that has never stored a creation promise has issued no creation call,
and one that has stores exactly the one call. -/
def creationInv (st : WriterState) : Prop :=
  st.createCalls = (if st.sessionCreating.isSome then 1 else 0)

/-! ## Session Writer writes after the creation promise has resolved

`save` (chatService.ts lines 127-142) and `saveInitialBrief` (lines 115-120)
both begin with `await this.ensureSession()`; when the awaited creation
promise has already resolved, the whole call runs to completion in one
segment, embedded below.  A `WriterWorld` pairs the writer with the resolved
value of its single creation promise (`none` while still pending) and a
count of the `appendMessage` store calls issued. -/

structure WriterWorld where
  writer : WriterState
  creationOutcome : Option (Except String String)
  appendCalls : Nat
deriving Repr

inductive SaveOutcome where
  | saved (sid : String)
  | failed (e : String)
  | pending
deriving DecidableEq, Repr

/-- Shallow embedding of one `save` (or `saveInitialBrief`) call: await
`ensureSession` — if it rejects, the call rejects with that error and
`appendMessage` is never reached; otherwise append the message and bump the
local counter (the fire-and-forget `touchSession` does not affect this
state). -/
def saveRun (w : WriterWorld) : WriterWorld × SaveOutcome :=
  match ensureSession w.writer with
  | (st, .resolved sid) =>
    ({ w with writer := { st with messageCount := st.messageCount + 1 },
              appendCalls := w.appendCalls + 1 },
     .saved sid)
  | (st, .awaiting _) =>
    match w.creationOutcome with
    | some (.ok sid) =>
      ({ w with
          writer := { st with sessionId := some sid,
                              messageCount := st.messageCount + 1 },
          appendCalls := w.appendCalls + 1 },
       .saved sid)
    | some (.error e) => ({ w with writer := st }, .failed e)
    | none => ({ w with writer := st }, .pending)

/-- Which writer method a caller invokes; both share the
`ensureSession`-then-`appendMessage` skeleton. -/
inductive WriteCall where
  | save
  | brief
deriving DecidableEq, Repr

def runWrite (w : WriterWorld) : WriteCall → WriterWorld × SaveOutcome
  | .save => saveRun w
  | .brief => saveRun w

def runWrites (w : WriterWorld) : List WriteCall → WriterWorld × List SaveOutcome
  | [] => (w, [])
  | c :: cs =>
    let (w1, r) := runWrite w c
    let (w2, rs) := runWrites w1 cs
    (w2, r :: rs)

/-- The world of a fresh writer whose single creation attempt (triggered by
the first write) has rejected with error `e`: the promise stays stored,
`sessionId` stays null, and no continuation ran. -/
def rejectedWorld (u p t e : String) : WriterWorld :=
  { writer := settleCreation (ensureSession (freshWriter u p t)).1 (.error e),
    creationOutcome := some (.error e),
    appendCalls := 0 }

/-! ## Remote Store Gateway (src/lib/ollama.ts concatenated appwrite section)

Store round trips are recorded as trace operations.  External outcomes
(whether an upload or delete round trip succeeds, what id the store
assigns) are parameters of the embedded functions; the trace records each
issued call together with its outcome, in issue order. -/

inductive Role where
  | user
  | assistant
deriving DecidableEq, Repr

/-- A persisted message row (`StoredMessage` in appwrite.ts).  The ISO
timestamp taken at document-creation time is modelled as a logical clock
value. -/
structure StoredMessage where
  id : String
  sessionId : String
  role : Role
  content : String
  storageFileId : Option String
  timestamp : Nat
deriving DecidableEq, Repr

/-- One store round trip as recorded in a trace. -/
inductive StoreOp where
  | uploadBlob (outcome : Except String String)
  | createMessageDoc (sessionId : String) (role : Role) (content : String)
      (storageFileId : Option String) (outcome : Except String String)
  | listMessagesPage (count : Nat)
  | deleteMessageDoc (id : String) (failed : Bool)
  | deleteBlob (fileId : String) (failed : Bool)
  | deleteSessionDoc (sessionId : String)
deriving DecidableEq, Repr

/-- Shallow embedding of `appendMessage` (ollama.ts lines 356-389): when a
truthy `imageFile` is passed, `storage.createFile` is awaited first — if
that upload rejects, the whole call rejects and `databases.createDocument`
is never issued; on success the new file id becomes the row's
`storageFileId`.  Without an image no upload is issued and the row's
`storageFileId` is null.  `uploadResult` / `createResult` are the outcomes
of the two store round trips (`createResult`'s value is the store-assigned
document id), and `now` is the timestamp taken when the document is
created. -/
def appendMessage (sessionId : String) (role : Role) (content : String)
    (imageFile : Bool) (uploadResult createResult : Except String String)
    (now : Nat) : List StoreOp × Except String StoredMessage :=
  if imageFile then
    match uploadResult with
    | .error e => ([.uploadBlob (.error e)], .error e)
    | .ok fid =>
      match createResult with
      | .error e =>
        ([.uploadBlob (.ok fid),
          .createMessageDoc sessionId role content (some fid) (.error e)],
         .error e)
      | .ok did =>
        ([.uploadBlob (.ok fid),
          .createMessageDoc sessionId role content (some fid) (.ok did)],
         .ok { id := did, sessionId := sessionId, role := role,
               content := content, storageFileId := some fid,
               timestamp := now })
  else
    match createResult with
    | .error e =>
      ([.createMessageDoc sessionId role content none (.error e)], .error e)
    | .ok did =>
      ([.createMessageDoc sessionId role content none (.ok did)],
       .ok { id := did, sessionId := sessionId, role := role,
             content := content, storageFileId := none, timestamp := now })

/-- Blob-reference integrity of a trace: every message-row creation that
references a blob is preceded (strictly earlier in the trace, i.e. earlier
in time) by the successful upload of that very blob. -/
def danglingFree (ops : List StoreOp) : Prop :=
  ∀ (i : Nat) (sid : String) (role : Role) (content fid : String)
    (outcome : Except String String),
    ops[i]? = some (.createMessageDoc sid role content (some fid) outcome) →
    ∃ j : Nat, j < i ∧ ops[j]? = some (.uploadBlob (.ok fid))

/-- A message document as `deleteSession` reads it back: its id and its
(possibly null) blob reference. -/
structure MsgDoc where
  id : String
  storageFileId : Option String
deriving DecidableEq, Repr

/-- The truthiness filter `if (doc['storageFileId']) fileIds.push(...)`
(ollama.ts line 331): a null or empty-string reference is not collected. -/
def truthyFileId (d : MsgDoc) : Option String :=
  match d.storageFileId with
  | some s => if s = "" then none else some s
  | none => none

/-- Concatenation of the delivered chunks in arrival order: what the
accumulator `assistantContent += chunk` holds after the stream (string
concatenation is associative, so the bracketing is immaterial). -/
def chunksConcat : List String → String
  | [] => ""
  | c :: cs => c ++ chunksConcat cs

/-- The paginated enumeration loop of `deleteSession` (ollama.ts lines
321-334): fetch batches of up to 100 rows, continuing with a cursor after
the last row of each full batch.  The store contract is embedded
positionally: `remaining` is the suffix of the session's rows after the
cursor, a fetch returns its first 100 rows (row ids are unique, so
`cursorAfter(lastId)` resumes exactly there). -/
def collectDocs (remaining : List MsgDoc) : List MsgDoc :=
  if h : (remaining.take 100).length = 100 then
    remaining.take 100 ++ collectDocs (remaining.drop 100)
  else remaining.take 100
termination_by remaining.length
decreasing_by
  simp only [List.length_take] at h
  simp only [List.length_drop]
  omega

/-- The listing round trips the same loop issues, each recording the number
of rows it returned. -/
def pagesOps (remaining : List MsgDoc) : List StoreOp :=
  if h : (remaining.take 100).length = 100 then
    .listMessagesPage (remaining.take 100).length :: pagesOps (remaining.drop 100)
  else [.listMessagesPage (remaining.take 100).length]
termination_by remaining.length
decreasing_by
  simp only [List.length_take] at h
  simp only [List.length_drop]
  omega

/-- Shallow embedding of `deleteSession` (ollama.ts lines 315-346) as the
trace it issues against a session whose rows are `msgs`: enumerate every
dependent row page by page; delete every message document (each rejection
is caught and logged — `msgDelFails` says which round trips fail); delete
every truthy referenced blob (rejections swallowed — `blobDelFails`); and
only then delete the session row itself, unconditionally. -/
def deleteSession (sessionId : String) (msgs : List MsgDoc)
    (msgDelFails blobDelFails : String → Bool) : List StoreOp :=
  let docs := collectDocs msgs
  pagesOps msgs
    ++ docs.map (fun d => .deleteMessageDoc d.id (msgDelFails d.id))
    ++ (docs.filterMap truthyFileId).map (fun i => .deleteBlob i (blobDelFails i))
    ++ [.deleteSessionDoc sessionId]

/-- JavaScript truthiness on an optional string: null and the empty string
are falsy. -/
def truthyStr : Option String → Option String
  | some s => if s = "" then none else some s
  | none => none

/-- What one store round trip of `deleteSession` writes to the console: a
message-document deletion rejection is caught by `.catch(console.warn)`
(ollama.ts line 338) and so emits a warning naming the row, while a blob
deletion rejection is caught by `.catch(() => null)` (line 342) and emits
nothing; listing and the final session delete log nothing. -/
def opLog : StoreOp → List String
  | .deleteMessageDoc i failed =>
    if failed then ["warn: failed to delete message " ++ i] else []
  | _ => []

/-- The console output of one `deleteSession` run: the per-operation log
lines of its trace, in trace order. -/
def deleteSessionLog (sessionId : String) (msgs : List MsgDoc)
    (msgDelFails blobDelFails : String → Bool) : List String :=
  (deleteSession sessionId msgs msgDelFails blobDelFails).flatMap opLog

/-- The UI-facing message shape (`ChatMessage` in chatService.ts). -/
structure ChatMessage where
  id : String
  role : Role
  content : String
  timestamp : Nat
  storageFileId : Option String
deriving DecidableEq, Repr

/-- Shallow embedding of `hydrateMessage` (chatService.ts lines 32-41). -/
def hydrateMessage (m : StoredMessage) : ChatMessage :=
  { id := m.id, role := m.role, content := m.content,
    timestamp := m.timestamp, storageFileId := m.storageFileId }

/-- The pagination loop of `loadSessionMessages` (chatService.ts lines
53-57): fetch batches of up to 50 rows; after each batch, continue only if
the batch was full (a short batch means end of data) and fewer than
`MAX_MESSAGES = 500` rows have been accumulated (`count` is `all.length`
before the batch is pushed).  As in `collectDocs`, the cursor contract is
embedded positionally over the session's timestamp-ascending rows. -/
def loadLoop (remaining : List StoredMessage) (count : Nat) :
    List StoredMessage :=
  if h : (remaining.take 50).length = 50
         ∧ count + (remaining.take 50).length < 500 then
    remaining.take 50
      ++ loadLoop (remaining.drop 50) (count + (remaining.take 50).length)
  else remaining.take 50
termination_by remaining.length
decreasing_by
  simp only [List.length_take] at h
  simp only [List.length_drop]
  omega

/-- Shallow embedding of `loadSessionMessages` (chatService.ts lines 48-71)
over the session's rows: run the pagination loop from an empty accumulator
and hydrate every fetched row.  (The blob-URL resolution step mutates only
`imageUrl`, which the hydrated shape here does not carry.) -/
def loadSessionMessages (rows : List StoredMessage) : List ChatMessage :=
  (loadLoop rows 0).map hydrateMessage

/-! ## Chat Orchestrator (src/components/chat/ChatInterface.tsx, `handleSend`)

`handleSend` (lines 77-182) is embedded as a function of its inputs and of
the outcomes of the external round trips it awaits: the streaming call
(which chunks arrived, and whether the stream then completed or threw) and
the two `writer.save` persistence calls.  Its observable effects are the
final transcript (`messages` state), the trace of writer-level persistence
calls it issued, and the console log. -/

/-- An in-memory transcript entry (the `ChatMessage` values held in the
`messages` state).  Ids are the client-generated `Date.now()` values. -/
structure Entry where
  id : Nat
  role : Role
  content : String
  imageUrl : Option String
  storageFileId : Option String
deriving DecidableEq, Repr

/-- Outcome of the streaming call: the chunks delivered to the callback in
arrival order, and either clean completion or a thrown error `e` (which may
arrive before the first chunk, `chunks = []`). -/
inductive StreamOutcome where
  | success (chunks : List String)
  | failure (chunks : List String) (e : String)
deriving DecidableEq, Repr

/-- What `writer.save` resolves with (chatService.ts lines 138-141). -/
structure SaveResult where
  storageFileId : Option String
  imageUrl : Option String
deriving DecidableEq, Repr

/-- Writer-level persistence calls `handleSend` issues, in issue order.
`briefSave` is the fire-and-forget `saveInitialBrief` for the opening brief
of a brand-new session — not part of the submitted turn.  `saveStarted`
marks a `writer.save` call for the turn being issued; `rowCreated` marks it
resolving, i.e. the turn's message row existing (its trace index models the
row's timestamp). -/
inductive OrchOp where
  | briefSave (content : String)
  | saveStarted (role : Role) (content : String)
  | rowCreated (role : Role) (content : String)
deriving DecidableEq, Repr

/-- The turn message rows a trace created, in creation (= timestamp)
order. -/
def rowsCreated (ops : List OrchOp) : List (Role × String) :=
  ops.filterMap fun op =>
    match op with
    | .rowCreated r c => some (r, c)
    | _ => none

/-- The fixed diagnostic shown when the stream fails (ChatInterface.tsx
line 174), built with an explicit U+0027 for the apostrophe. -/
def connectionErrorText : String :=
  " Sorry, I couldn" ++ String.singleton (Char.ofNat 39)
    ++ "t connect to the AI. Make sure Ollama is running on localhost:11434 with a vision model like llava or gemma3."

/-- One streaming callback invocation (ChatInterface.tsx lines 127-134):
append the chunk to the entry whose id is the assistant placeholder's. -/
def applyChunk (msgs : List Entry) (aid : Nat) (chunk : String) : List Entry :=
  msgs.map fun m => if m.id = aid then { m with content := m.content ++ chunk } else m

def applyChunks (msgs : List Entry) (aid : Nat) : List String → List Entry
  | [] => msgs
  | c :: cs => applyChunks (applyChunk msgs aid c) aid cs

/-- The stream-failure handler (ChatInterface.tsx lines 168-178): replace
the placeholder's content with the fixed diagnostic. -/
def replaceWithDiagnostic (msgs : List Entry) (aid : Nat) : List Entry :=
  msgs.map fun m => if m.id = aid then { m with content := connectionErrorText } else m

/-- The transcript reconciliation after a fully successful persist
(ChatInterface.tsx lines 143-156): when the saved user row carries a truthy
blob reference, copy the resolved reference and display URL onto the user
entry. -/
def reconcileImage (msgs : List Entry) (uid : Nat) (saved : SaveResult) :
    List Entry :=
  match truthyStr saved.storageFileId with
  | some fid =>
    msgs.map fun m =>
      if m.id = uid then { m with imageUrl := saved.imageUrl, storageFileId := some fid }
      else m
  | none => msgs

/-- Observable result of one `handleSend` call: the final `messages` state,
the writer-call trace, and the console log. -/
structure SendResult where
  messages : List Entry
  ops : List OrchOp
  log : List String
deriving Repr

/-- Shallow embedding of `handleSend` (ChatInterface.tsx lines 77-182).

Inputs: `prior` is the `messages` state; `input` / `image` the composed
turn (`blobUrl` names the object URL created for the image); `writerExists`
whether `writerRef.current` is already set, `initialMessage` the opening
brief; `uid` the `Date.now()` id of the user entry (the placeholder gets
`uid + 1`); `stream`, `userSave`, `asstSave` the outcomes of the awaited
round trips.

Control flow mirrored: blank-input guard (line 78); optimistic user entry
and empty assistant placeholder appended (lines 91-100); lazy writer
construction firing the brief save (lines 105-112); streaming with chunks
appended to the placeholder (lines 127-134); on stream success the persist
phase saves the user turn and only after it resolves the assistant turn,
catching any save error into a log line that leaves the transcript alone
(lines 137-165); on stream failure the placeholder is replaced with the
fixed diagnostic and the persist phase is never reached (lines 166-178). -/
def handleSend (prior : List Entry) (input : String) (image : Bool)
    (blobUrl : String) (writerExists : Bool) (initialMessage : Option String)
    (uid : Nat) (stream : StreamOutcome)
    (userSave asstSave : Except String SaveResult) : SendResult :=
  if input.trim = "" ∧ image = false then
    { messages := prior, ops := [], log := [] }
  else
    let userContent := if input = "" then "(Screenshot attached)" else input
    let userEntry : Entry :=
      { id := uid, role := .user, content := userContent,
        imageUrl := if image then some blobUrl else none,
        storageFileId := none }
    let aid := uid + 1
    let placeholder : Entry :=
      { id := aid, role := .assistant, content := "",
        imageUrl := none, storageFileId := none }
    let msgs1 := prior ++ [userEntry, placeholder]
    let briefOps :=
      if writerExists then []
      else
        match initialMessage with
        | some m => [OrchOp.briefSave m]
        | none => []
    match stream with
    | .failure cs e =>
      { messages := replaceWithDiagnostic (applyChunks msgs1 aid cs) aid,
        ops := briefOps,
        log := ["Streaming error: " ++ e] }
    | .success cs =>
      let msgs2 := applyChunks msgs1 aid cs
      match userSave with
      | .error e =>
        { messages := msgs2,
          ops := briefOps ++ [.saveStarted .user userContent],
          log := ["Failed to persist messages: " ++ e] }
      | .ok savedUser =>
        match asstSave with
        | .error e =>
          { messages := msgs2,
            ops := briefOps
              ++ [.saveStarted .user userContent,
                  .rowCreated .user userContent,
                  .saveStarted .assistant (chunksConcat cs)],
            log := ["Failed to persist messages: " ++ e] }
        | .ok _ =>
          { messages := reconcileImage msgs2 uid savedUser,
            ops := briefOps
              ++ [.saveStarted .user userContent,
                  .rowCreated .user userContent,
                  .saveStarted .assistant (chunksConcat cs),
                  .rowCreated .assistant (chunksConcat cs)],
            log := [] }

/-! ## Theorems -/

theorem processLines_append_of_no_fatal (xs : List Line)
    (h : ∀ l ∈ xs, l.fatal = none) (ys : List Line) :
    processLines (xs ++ ys) =
      ((linesChunks xs) ++ (processLines ys).1, (processLines ys).2) := by
  induction xs with
  | nil => simp [linesChunks]
  | cons a as ih =>
    have ha : a.fatal = none := h a (by simp)
    have has : ∀ l ∈ as, l.fatal = none := fun l hl => h l (by simp [hl])
    simp [processLines, ha, ih has, linesChunks, List.flatMap_cons]

theorem processLines_junk_skipped (xs ys : List Line)
    (h : ∀ l ∈ xs, l.fatal = none) :
    processLines (xs ++ Line.junk :: ys) = processLines (xs ++ ys) := by
  have hx : ∀ l ∈ xs ++ [Line.junk], l.fatal = none := by
    intro l hl
    rcases List.mem_append.mp hl with h1 | h1
    · exact h l h1
    · simp at h1; subst h1; rfl
  have h1 := processLines_append_of_no_fatal (xs ++ [Line.junk]) hx ys
  have h2 := processLines_append_of_no_fatal xs h ys
  have hchunks : linesChunks (xs ++ [Line.junk]) = linesChunks xs := by
    simp [linesChunks, Line.chunks]
  rw [List.append_assoc] at h1
  simp only [List.singleton_append] at h1
  rw [h1, h2, hchunks]

/-- C5: a complete line that fails to parse as JSON is skipped (only logged)
and processing continues: dropping a malformed line from anywhere in the
stream does not change the result, so one malformed line between two valid
content lines yields the two fragments in order — concatenating to
`s1 ++ s2` — with no error raised; whereas a line that parses but carries a
truthy `error` field aborts the stream with that failure, processing no
further lines. -/
theorem C5_framing_resilience (s1 s2 e : String)
    (hs1 : s1 ≠ "") (hs2 : s2 ≠ "") (he : e ≠ "")
    (xs ys rest : List Line) (hxs : ∀ l ∈ xs, l.fatal = none) :
    processLines (xs ++ Line.junk :: ys) = processLines (xs ++ ys)
    ∧ processLines [Line.obj (some s1) none, Line.junk, Line.obj (some s2) none]
        = ([s1, s2], none)
    ∧ chunksConcat [s1, s2] = s1 ++ s2
    ∧ processLines (Line.obj none (some e) :: rest) = ([], some e) := by
  refine ⟨processLines_junk_skipped xs ys hxs, ?_, ?_, ?_⟩
  · simp [processLines, Line.fatal, Line.chunks, hs1, hs2]
  · simp [chunksConcat]
  · simp [processLines, Line.fatal, Line.chunks, he]

theorem C5_framing_resilience_witness :
    processLines ([] ++ Line.junk :: []) = processLines ([] ++ [])
    ∧ processLines
        [Line.obj (some "Hel") none, Line.junk, Line.obj (some "lo") none]
        = (["Hel", "lo"], none)
    ∧ chunksConcat ["Hel", "lo"] = "Hel" ++ "lo"
    ∧ processLines (Line.obj none (some "boom") :: []) = ([], some "boom") :=
  C5_framing_resilience "Hel" "lo" "boom" (by decide) (by decide) (by decide)
    [] [] [] (by intro l hl; cases hl)

/-- C6: on a non-success HTTP status, `sendStreamingChatMessage` throws the
error string carrying the numeric status and the response body text, and the
per-chunk callback is never invoked (the delivered-chunk list is empty). -/
theorem C6_http_error_fail_fast (r : HttpResponse) (h : r.ok = false) :
    sendStreamingChatMessage r =
      ([], some ("Ollama API error (" ++ toString r.status ++ "): " ++ r.bodyText)) := by
  simp [sendStreamingChatMessage, h]

theorem C6_http_error_fail_fast_witness :
    sendStreamingChatMessage
        { ok := false, status := 500, bodyText := "model not found",
          lines := [Line.obj (some "hi") none] }
      = ([], some "Ollama API error (500): model not found") :=
  C6_http_error_fail_fast
    { ok := false, status := 500, bodyText := "model not found",
      lines := [Line.obj (some "hi") none] } rfl

theorem creationInv_fresh (u p t : String) : creationInv (freshWriter u p t) := by
  simp [creationInv, freshWriter]

theorem creationInv_step (st : WriterState) (h : creationInv st)
    (e : WriterEvent) : creationInv (stepWriter st e) := by
  cases e with
  | ensure =>
    unfold stepWriter ensureSession
    cases hsid : st.sessionId with
    | some sid => simpa [hsid] using h
    | none =>
      cases hc : st.sessionCreating with
      | some p => simpa [hsid, hc] using h
      | none =>
        simp [hsid, hc, creationInv] at h ⊢
        exact h
  | settle o =>
    cases o with
    | ok sid => simpa [stepWriter, settleCreation, creationInv] using h
    | error e => simpa [stepWriter, settleCreation] using h

theorem creationInv_run (st : WriterState) (h : creationInv st)
    (es : List WriterEvent) : creationInv (runWriter st es) := by
  induction es generalizing st with
  | nil => exact h
  | cons e es ih => exact ih (stepWriter st e) (creationInv_step st h e)

/-- C1: at most one session-creation call is ever issued per `SessionWriter`
instance, under every interleaving of `ensureSession` prologues and promise
resolutions starting from a fresh writer; and two concurrent first-turn
submissions both receive the same in-flight creation promise (id 0) — the
second caller awaits the first caller's creation instead of starting one —
with exactly one creation call (one session row) issued between them. -/
theorem C1_single_session_creation (u p t : String) (es : List WriterEvent) :
    (runWriter (freshWriter u p t) es).createCalls ≤ 1
    ∧ (ensureSession (freshWriter u p t)).2 = .awaiting 0
    ∧ (ensureSession (ensureSession (freshWriter u p t)).1).2 = .awaiting 0
    ∧ (ensureSession (ensureSession (freshWriter u p t)).1).1.createCalls = 1 := by
  refine ⟨?_, rfl, rfl, rfl⟩
  have h := creationInv_run (freshWriter u p t) (creationInv_fresh u p t) es
  unfold creationInv at h
  rw [h]
  split <;> omega

theorem runWrite_rejected (u p t e : String) (c : WriteCall) :
    runWrite (rejectedWorld u p t e) c = (rejectedWorld u p t e, .failed e) := by
  cases c <;> rfl

/-- C10: once the single creation attempt inside a `SessionWriter` has
rejected, the stored in-flight promise is never cleared or retried: every
subsequent `save` / `saveInitialBrief` call on that instance rejects with
the original creation error, the world is left unchanged — still exactly
one creation call issued, the promise still stored, no `appendMessage` ever
reached. -/
theorem C10_rejected_creation_sticks (u p t e : String)
    (calls : List WriteCall) :
    (runWrites (rejectedWorld u p t e) calls).2
        = calls.map (fun _ => SaveOutcome.failed e)
    ∧ (runWrites (rejectedWorld u p t e) calls).1 = rejectedWorld u p t e
    ∧ (rejectedWorld u p t e).writer.createCalls = 1
    ∧ (rejectedWorld u p t e).writer.sessionCreating = some 0
    ∧ (rejectedWorld u p t e).writer.sessionId = none
    ∧ (rejectedWorld u p t e).appendCalls = 0 := by
  refine ⟨?_, ?_, rfl, rfl, rfl, rfl⟩ <;>
  · induction calls with
    | nil => rfl
    | cons c cs ih =>
      simp only [runWrites, runWrite_rejected, List.map_cons]
      simpa using ih

/-- C3: `appendMessage` uploads the image blob strictly before creating the
message row (the upload op precedes the row op in the trace); if the blob
upload fails the call rejects with that error and no message-row creation
is ever issued; a message saved without an image carries a null
`storageFileId`; and every trace it can produce is dangling-free — a row
op referencing a blob is always preceded by that blob's successful
upload. -/
theorem C3_blob_before_reference (sid : String) (role : Role) (content : String)
    (imageFile : Bool) (uploadResult createResult : Except String String)
    (now : Nat) (e fid : String) :
    appendMessage sid role content true (.error e) createResult now
        = ([.uploadBlob (.error e)], .error e)
    ∧ (appendMessage sid role content true (.ok fid) createResult now).1
        = [.uploadBlob (.ok fid),
           .createMessageDoc sid role content (some fid) createResult]
    ∧ (∀ did, createResult = .ok did →
        (appendMessage sid role content false uploadResult createResult now).2
          = .ok { id := did, sessionId := sid, role := role, content := content,
                  storageFileId := none, timestamp := now })
    ∧ danglingFree
        (appendMessage sid role content imageFile uploadResult createResult now).1 := by
  refine ⟨by simp [appendMessage], ?_, ?_, ?_⟩
  · cases createResult <;> simp [appendMessage]
  · intro did h
    subst h
    simp [appendMessage]
  · have hnone : ∀ sid2 role2 content2 (out : Except String String),
        danglingFree [StoreOp.createMessageDoc sid2 role2 content2 none out] := by
      intro sid2 role2 content2 out i s r c f o hi
      match i with
      | 0 => simp at hi
      | (i + 1) => simp at hi
    have hupload : ∀ (o : Except String String), danglingFree [StoreOp.uploadBlob o] := by
      intro o i s r c f o2 hi
      match i with
      | 0 => simp at hi
      | (i + 1) => simp at hi
    have hpair : ∀ fid2 (out : Except String String),
        danglingFree [StoreOp.uploadBlob (.ok fid2),
                      StoreOp.createMessageDoc sid role content (some fid2) out] := by
      intro fid2 out i s r c f o hi
      match i with
      | 0 => simp at hi
      | 1 =>
        simp at hi
        exact ⟨0, by omega, by simp [hi.2.2.2.1]⟩
      | (i + 2) => simp at hi
    cases imageFile with
    | false =>
      cases createResult with
      | ok did => simpa [appendMessage] using hnone sid role content (.ok did)
      | error e2 => simpa [appendMessage] using hnone sid role content (.error e2)
    | true =>
      cases uploadResult with
      | error e2 => simpa [appendMessage] using hupload (.error e2)
      | ok fid2 =>
        cases createResult with
        | ok did => simpa [appendMessage] using hpair fid2 (.ok did)
        | error e2 => simpa [appendMessage] using hpair fid2 (.error e2)

theorem C3_blob_before_reference_witness :
    appendMessage "s1" .user "hi" true (.error "upload failed") (.ok "d1") 7
        = ([.uploadBlob (.error "upload failed")], .error "upload failed")
    ∧ (appendMessage "s1" .user "hi" true (.ok "f1") (.ok "d1") 7).1
        = [.uploadBlob (.ok "f1"),
           .createMessageDoc "s1" .user "hi" (some "f1") (.ok "d1")]
    ∧ (appendMessage "s1" .user "hi" false (.ok "f1") (.ok "d1") 7).2
        = .ok { id := "d1", sessionId := "s1", role := .user, content := "hi",
                storageFileId := none, timestamp := 7 }
    ∧ danglingFree (appendMessage "s1" .user "hi" true (.ok "f1") (.ok "d1") 7).1 := by
  have h := C3_blob_before_reference "s1" .user "hi" true (.ok "f1") (.ok "d1") 7
    "upload failed" "f1"
  exact ⟨h.1, h.2.1, h.2.2.1 "d1" rfl, h.2.2.2⟩

theorem collectDocs_eq (l : List MsgDoc) : collectDocs l = l := by
  induction l using collectDocs.induct with
  | case1 l h ih =>
    rw [collectDocs]
    simp only [h, dite_true, ih]
    exact List.take_append_drop 100 l
  | case2 l h =>
    rw [collectDocs]
    simp only [h, dite_false]
    simp only [List.length_take] at h
    exact List.take_of_length_le (by omega)

theorem pagesOps_capped (l : List MsgDoc) (n : Nat)
    (h : StoreOp.listMessagesPage n ∈ pagesOps l) : n ≤ 100 := by
  induction l using pagesOps.induct with
  | case1 l hl ih =>
    rw [pagesOps] at h
    simp only [hl, dite_true, List.mem_cons] at h
    rcases h with h | h
    · injection h with h2
      omega
    · exact ih h
  | case2 l hl =>
    rw [pagesOps] at h
    simp only [hl, dite_false, List.mem_singleton] at h
    injection h with h2
    simp only [List.length_take] at h2
    omega

theorem opLog_pagesOps (l : List MsgDoc) : (pagesOps l).flatMap opLog = [] := by
  induction l using pagesOps.induct with
  | case1 l h ih =>
    rw [pagesOps, dif_pos h]
    simp [opLog, ih]
  | case2 l h =>
    rw [pagesOps, dif_neg h]
    simp [opLog]

theorem opLog_msgDeletes (msgs : List MsgDoc) (f : String → Bool) :
    (msgs.map (fun d => StoreOp.deleteMessageDoc d.id (f d.id))).flatMap opLog
      = (msgs.filter (fun d => f d.id)).map
          (fun d => "warn: failed to delete message " ++ d.id) := by
  induction msgs with
  | nil => rfl
  | cons d ds ih =>
    cases hf : f d.id <;> simp [opLog, hf, ih, List.filter_cons]

theorem opLog_blobDeletes (ids : List String) (g : String → Bool) :
    (ids.map (fun i => StoreOp.deleteBlob i (g i))).flatMap opLog = [] := by
  induction ids with
  | nil => rfl
  | cons i is ih => simp [opLog, ih]

/-- C8 counterexample: the claim says individual row/blob deletion failures
are tolerated *and logged*, but a failed blob deletion is swallowed
silently: on a session with one message referencing blob `f1`, where the
blob deletion fails (and the row deletion succeeds), the trace contains the
failed blob delete yet the run's console log is empty — nothing is logged
for the blob failure. -/
theorem C8_cascading_delete_counterexample :
    StoreOp.deleteBlob "f1" true
      ∈ deleteSession "s1" [{ id := "m1", storageFileId := some "f1" }]
          (fun _ => false) (fun _ => true)
    ∧ deleteSessionLog "s1" [{ id := "m1", storageFileId := some "f1" }]
        (fun _ => false) (fun _ => true) = [] := by
  have hc := collectDocs_eq [{ id := "m1", storageFileId := some "f1" }]
  constructor
  · simp [deleteSession, hc, truthyFileId]
  · simp [deleteSessionLog, deleteSession, hc, truthyFileId, List.flatMap_append,
      opLog_pagesOps, opLog]

/-- C8 (amended): `deleteSession` first enumerates every dependent message
row through paginated listing round trips of at most 100 rows each; then
issues a delete for every enumerated message row and for every (truthy)
referenced blob, with each round trip's failure tolerated (the failure
patterns are arbitrary and change nothing else in the trace); only after
all those deletions does it delete the session row itself — the session
delete is the final operation of every trace; and the run's console log
consists of exactly one warning per failed message-row deletion — failed
blob deletions are swallowed silently, contributing nothing to the log. -/
theorem C8_cascading_delete (sessionId : String) (msgs : List MsgDoc)
    (msgDelFails blobDelFails : String → Bool) :
    deleteSession sessionId msgs msgDelFails blobDelFails
      = pagesOps msgs
        ++ msgs.map (fun d => .deleteMessageDoc d.id (msgDelFails d.id))
        ++ (msgs.filterMap truthyFileId).map
              (fun i => .deleteBlob i (blobDelFails i))
        ++ [.deleteSessionDoc sessionId]
    ∧ (∀ n, StoreOp.listMessagesPage n ∈ pagesOps msgs → n ≤ 100)
    ∧ (deleteSession sessionId msgs msgDelFails blobDelFails).getLast?
        = some (.deleteSessionDoc sessionId)
    ∧ deleteSessionLog sessionId msgs msgDelFails blobDelFails
        = (msgs.filter (fun d => msgDelFails d.id)).map
            (fun d => "warn: failed to delete message " ++ d.id) := by
  have htrace : deleteSession sessionId msgs msgDelFails blobDelFails
      = pagesOps msgs
        ++ msgs.map (fun d => .deleteMessageDoc d.id (msgDelFails d.id))
        ++ (msgs.filterMap truthyFileId).map
              (fun i => .deleteBlob i (blobDelFails i))
        ++ [.deleteSessionDoc sessionId] := by
    unfold deleteSession
    rw [collectDocs_eq]
  refine ⟨htrace, fun n => pagesOps_capped msgs n, ?_, ?_⟩
  · rw [htrace]
    simp [List.getLast?_append]
  · unfold deleteSessionLog
    rw [htrace]
    simp only [List.flatMap_append]
    rw [opLog_pagesOps, opLog_msgDeletes, opLog_blobDeletes]
    simp [opLog]

theorem C8_cascading_delete_witness :
    deleteSession "s1"
        [{ id := "m1", storageFileId := some "f1" },
         { id := "m2", storageFileId := none }]
        (fun i => i = "m1") (fun _ => true)
      = pagesOps
          [{ id := "m1", storageFileId := some "f1" },
           { id := "m2", storageFileId := none }]
        ++ [.deleteMessageDoc "m1" true, .deleteMessageDoc "m2" false]
        ++ [.deleteBlob "f1" true]
        ++ [.deleteSessionDoc "s1"]
    ∧ 2 ≤ 100
    ∧ (deleteSession "s1"
        [{ id := "m1", storageFileId := some "f1" },
         { id := "m2", storageFileId := none }]
        (fun i => i = "m1") (fun _ => true)).getLast?
        = some (.deleteSessionDoc "s1")
    ∧ deleteSessionLog "s1"
        [{ id := "m1", storageFileId := some "f1" },
         { id := "m2", storageFileId := none }]
        (fun i => i = "m1") (fun _ => true)
        = ["warn: failed to delete message m1"] := by
  have h := C8_cascading_delete "s1"
    [{ id := "m1", storageFileId := some "f1" },
     { id := "m2", storageFileId := none }]
    (fun i => i = "m1") (fun _ => true)
  refine ⟨?_, h.2.1 2 (by rw [pagesOps]; simp [pagesOps]), h.2.2.1, ?_⟩
  · rw [h.1]
    simp [truthyFileId]
  · rw [h.2.2.2]
    simp

theorem loadLoop_eq_take (l : List StoredMessage) (count : Nat) :
    50 ∣ count → count + 50 ≤ 500 → loadLoop l count = l.take (500 - count) := by
  induction l, count using loadLoop.induct with
  | case1 l count h ih =>
    intro hdvd hle
    have h50 : (l.take 50).length = 50 := h.1
    have hdvd2 : 50 ∣ count + (l.take 50).length := by
      rw [h50]
      exact Nat.dvd_add hdvd (Nat.dvd_refl 50)
    have hle2 : count + (l.take 50).length + 50 ≤ 500 := by
      rcases hdvd2 with ⟨k, hk⟩
      have hlt := h.2
      rw [h50] at hk hlt ⊢
      omega
    rw [loadLoop, dif_pos h, ih hdvd2 hle2, h50]
    have hsplit : 500 - count = 50 + (500 - (count + 50)) := by omega
    rw [hsplit, List.take_add]
  | case2 l count h =>
    intro hdvd hle
    rw [loadLoop, dif_neg h]
    by_cases hfull : (l.take 50).length = 50
    · have hstop : ¬ count + (l.take 50).length < 500 := fun hc => h ⟨hfull, hc⟩
      rw [hfull] at hstop
      have h500 : 500 - count = 50 := by omega
      rw [h500]
    · simp only [List.length_take] at hfull
      have hlen : l.length < 50 := by omega
      rw [List.take_of_length_le (by omega), List.take_of_length_le (by omega)]

/-- C9: `loadSessionMessages` is a total function (the pagination loop
terminates on every input) and returns the hydration of at most the first
`MAX_MESSAGES = 500` rows of the session — exactly all rows when the
session holds at most 500, and exactly 500 when it holds more — so its
result never exceeds 500 messages. -/
theorem C9_load_bounded (rows : List StoredMessage) :
    loadSessionMessages rows = (rows.take 500).map hydrateMessage
    ∧ (loadSessionMessages rows).length ≤ 500
    ∧ (rows.length ≤ 500 → loadSessionMessages rows = rows.map hydrateMessage)
    ∧ (500 ≤ rows.length → (loadSessionMessages rows).length = 500) := by
  have h := loadLoop_eq_take rows 0 (Dvd.intro 0 rfl) (by omega)
  have hmain : loadSessionMessages rows = (rows.take 500).map hydrateMessage := by
    unfold loadSessionMessages
    rw [h]
  refine ⟨hmain, ?_, ?_, ?_⟩
  · rw [hmain]
    simp only [List.length_map, List.length_take]
    omega
  · intro hle
    rw [hmain, List.take_of_length_le hle]
  · intro hge
    rw [hmain]
    simp only [List.length_map, List.length_take]
    omega

theorem C9_load_bounded_witness :
    loadSessionMessages [] = (([] : List StoredMessage).take 500).map hydrateMessage
    ∧ (loadSessionMessages []).length ≤ 500
    ∧ loadSessionMessages [] = ([] : List StoredMessage).map hydrateMessage := by
  have h := C9_load_bounded []
  exact ⟨h.1, h.2.1, h.2.2.1 (by simp)⟩

theorem map_update_id (pre : List Entry) (aid : Nat) (f : Entry → Entry)
    (h : ∀ m ∈ pre, m.id ≠ aid) :
    pre.map (fun m => if m.id = aid then f m else m) = pre := by
  induction pre with
  | nil => rfl
  | cons a as ih =>
    have ha : a.id ≠ aid := h a (by simp)
    have has : ∀ m ∈ as, m.id ≠ aid := fun m hm => h m (by simp [hm])
    simp [ha, ih has]

theorem applyChunk_last (pre : List Entry) (p : Entry) (aid : Nat) (c : String)
    (hpre : ∀ m ∈ pre, m.id ≠ aid) (hp : p.id = aid) :
    applyChunk (pre ++ [p]) aid c = pre ++ [{ p with content := p.content ++ c }] := by
  unfold applyChunk
  rw [List.map_append, map_update_id pre aid _ hpre]
  simp [hp]

theorem applyChunks_last (pre : List Entry) (p : Entry) (aid : Nat)
    (cs : List String) (hpre : ∀ m ∈ pre, m.id ≠ aid) (hp : p.id = aid) :
    applyChunks (pre ++ [p]) aid cs
      = pre ++ [{ p with content := p.content ++ chunksConcat cs }] := by
  induction cs generalizing p with
  | nil => simp [applyChunks, chunksConcat]
  | cons c cs ih =>
    rw [applyChunks, applyChunk_last pre p aid c hpre hp]
    rw [ih { p with content := p.content ++ c } hp]
    simp [chunksConcat, String.append_assoc]

theorem replaceWithDiagnostic_last (pre : List Entry) (p : Entry) (aid : Nat)
    (hpre : ∀ m ∈ pre, m.id ≠ aid) (hp : p.id = aid) :
    replaceWithDiagnostic (pre ++ [p]) aid
      = pre ++ [{ p with content := connectionErrorText }] := by
  unfold replaceWithDiagnostic
  rw [List.map_append, map_update_id pre aid _ hpre]
  simp [hp]

/-- C2: when the streaming call completes successfully and the persistence
step then fails — either the user-turn save or the assistant-turn save
rejects — the rendered transcript is exactly what streaming produced: the
optimistic user entry followed by the assistant entry whose content is the
concatenation of all streamed chunks in arrival order (no truncation, no
replacement by an error message), and the persistence error is only logged
(the log holds precisely the persist-failure line). -/
theorem C2_persist_failure_keeps_transcript
    (prior : List Entry) (input : String) (image : Bool) (blobUrl : String)
    (writerExists : Bool) (initialMessage : Option String) (uid : Nat)
    (cs : List String) (userSave asstSave : Except String SaveResult)
    (e : String)
    (hfresh : ∀ m ∈ prior, m.id ≠ uid + 1)
    (hguard : ¬ (input.trim = "" ∧ image = false))
    (hfail : userSave = .error e
             ∨ (asstSave = .error e ∧ ∃ r, userSave = .ok r)) :
    (handleSend prior input image blobUrl writerExists initialMessage uid
        (.success cs) userSave asstSave).messages
      = prior
        ++ [{ id := uid, role := .user,
              content := if input = "" then "(Screenshot attached)" else input,
              imageUrl := if image then some blobUrl else none,
              storageFileId := none },
            { id := uid + 1, role := .assistant, content := chunksConcat cs,
              imageUrl := none, storageFileId := none }]
    ∧ (handleSend prior input image blobUrl writerExists initialMessage uid
        (.success cs) userSave asstSave).log
      = ["Failed to persist messages: " ++ e] := by
  have hpre : ∀ m ∈ prior
      ++ [({ id := uid, role := .user,
             content := if input = "" then "(Screenshot attached)" else input,
             imageUrl := if image then some blobUrl else none,
             storageFileId := none } : Entry)], m.id ≠ uid + 1 := by
    intro m hm
    rcases List.mem_append.mp hm with h | h
    · exact hfresh m h
    · simp at h
      subst h
      simp
  have happly := applyChunks_last _
    ({ id := uid + 1, role := .assistant, content := "",
       imageUrl := none, storageFileId := none } : Entry) (uid + 1) cs hpre rfl
  rcases hfail with h | ⟨hasst, r, hr⟩
  · subst h
    simp only [handleSend]
    simp [hguard]
    rw [show (prior
        ++ [({ id := uid, role := .user,
               content := if input = "" then "(Screenshot attached)" else input,
               imageUrl := if image then some blobUrl else none,
               storageFileId := none } : Entry),
            ({ id := uid + 1, role := .assistant, content := "",
               imageUrl := none, storageFileId := none } : Entry)])
      = (prior
        ++ [({ id := uid, role := .user,
               content := if input = "" then "(Screenshot attached)" else input,
               imageUrl := if image then some blobUrl else none,
               storageFileId := none } : Entry)])
        ++ [({ id := uid + 1, role := .assistant, content := "",
               imageUrl := none, storageFileId := none } : Entry)] by simp]
    rw [happly]
    simp
  · subst hasst hr
    simp only [handleSend]
    simp [hguard]
    rw [show (prior
        ++ [({ id := uid, role := .user,
               content := if input = "" then "(Screenshot attached)" else input,
               imageUrl := if image then some blobUrl else none,
               storageFileId := none } : Entry),
            ({ id := uid + 1, role := .assistant, content := "",
               imageUrl := none, storageFileId := none } : Entry)])
      = (prior
        ++ [({ id := uid, role := .user,
               content := if input = "" then "(Screenshot attached)" else input,
               imageUrl := if image then some blobUrl else none,
               storageFileId := none } : Entry)])
        ++ [({ id := uid + 1, role := .assistant, content := "",
               imageUrl := none, storageFileId := none } : Entry)] by simp]
    rw [happly]
    simp

/-- C4: when a completed exchange is persisted (stream success, both saves
succeed), the user's message row is created strictly before the assistant's:
the trace of turn rows created — in creation order, trace position being
the timestamp — is exactly user row then assistant row, and there are trace
positions `i < j < k` with the user row created at `i`, the assistant save
only started at `j`, and the assistant row created at `k`; so persisted
timestamps are monotonically non-decreasing in user-then-assistant order. -/
theorem C4_user_row_before_assistant_row
    (prior : List Entry) (input : String) (image : Bool) (blobUrl : String)
    (writerExists : Bool) (initialMessage : Option String) (uid : Nat)
    (cs : List String) (ru ra : SaveResult)
    (hguard : ¬ (input.trim = "" ∧ image = false)) :
    rowsCreated (handleSend prior input image blobUrl writerExists
        initialMessage uid (.success cs) (.ok ru) (.ok ra)).ops
      = [(Role.user, if input = "" then "(Screenshot attached)" else input),
         (Role.assistant, chunksConcat cs)]
    ∧ ∃ i j k : Nat, i < j ∧ j < k
        ∧ (handleSend prior input image blobUrl writerExists
            initialMessage uid (.success cs) (.ok ru) (.ok ra)).ops[i]?
          = some (.rowCreated .user
              (if input = "" then "(Screenshot attached)" else input))
        ∧ (handleSend prior input image blobUrl writerExists
            initialMessage uid (.success cs) (.ok ru) (.ok ra)).ops[j]?
          = some (.saveStarted .assistant (chunksConcat cs))
        ∧ (handleSend prior input image blobUrl writerExists
            initialMessage uid (.success cs) (.ok ru) (.ok ra)).ops[k]?
          = some (.rowCreated .assistant (chunksConcat cs)) := by
  cases writerExists with
  | true =>
    constructor
    · simp [handleSend, hguard, rowsCreated]
    · exact ⟨1, 2, 3, by omega, by omega,
        by simp [handleSend, hguard], by simp [handleSend, hguard],
        by simp [handleSend, hguard]⟩
  | false =>
    cases initialMessage with
    | none =>
      constructor
      · simp [handleSend, hguard, rowsCreated]
      · exact ⟨1, 2, 3, by omega, by omega,
          by simp [handleSend, hguard], by simp [handleSend, hguard],
          by simp [handleSend, hguard]⟩
    | some m =>
      constructor
      · simp [handleSend, hguard, rowsCreated]
      · exact ⟨2, 3, 4, by omega, by omega,
          by simp [handleSend, hguard], by simp [handleSend, hguard],
          by simp [handleSend, hguard]⟩

/-- C7: on stream failure at any point — `cs` chunks (possibly none)
delivered before the error — the assistant placeholder's content is
replaced with the fixed diagnostic string telling the user to verify
Ollama is running, and no turn message rows are created: the persist phase
is never reached (no turn save is even started; only the opening-brief
fire-and-forget save of a brand-new session may appear in the trace). -/
theorem C7_stream_failure_shows_diagnostic
    (prior : List Entry) (input : String) (image : Bool) (blobUrl : String)
    (writerExists : Bool) (initialMessage : Option String) (uid : Nat)
    (cs : List String) (e : String)
    (userSave asstSave : Except String SaveResult)
    (hfresh : ∀ m ∈ prior, m.id ≠ uid + 1)
    (hguard : ¬ (input.trim = "" ∧ image = false)) :
    (handleSend prior input image blobUrl writerExists initialMessage uid
        (.failure cs e) userSave asstSave).messages
      = prior
        ++ [{ id := uid, role := .user,
              content := if input = "" then "(Screenshot attached)" else input,
              imageUrl := if image then some blobUrl else none,
              storageFileId := none },
            { id := uid + 1, role := .assistant,
              content := connectionErrorText,
              imageUrl := none, storageFileId := none }]
    ∧ rowsCreated (handleSend prior input image blobUrl writerExists
        initialMessage uid (.failure cs e) userSave asstSave).ops = []
    ∧ ∀ (r : Role) (c : String),
        OrchOp.saveStarted r c
          ∉ (handleSend prior input image blobUrl writerExists
              initialMessage uid (.failure cs e) userSave asstSave).ops := by
  have hpre : ∀ m ∈ prior
      ++ [({ id := uid, role := .user,
             content := if input = "" then "(Screenshot attached)" else input,
             imageUrl := if image then some blobUrl else none,
             storageFileId := none } : Entry)], m.id ≠ uid + 1 := by
    intro m hm
    rcases List.mem_append.mp hm with h | h
    · exact hfresh m h
    · simp at h
      subst h
      simp
  have happly := applyChunks_last _
    ({ id := uid + 1, role := .assistant, content := "",
       imageUrl := none, storageFileId := none } : Entry) (uid + 1) cs hpre rfl
  have hrepl := replaceWithDiagnostic_last _
    ({ id := uid + 1, role := .assistant,
       content := "" ++ chunksConcat cs,
       imageUrl := none, storageFileId := none } : Entry) (uid + 1) hpre rfl
  refine ⟨?_, ?_, ?_⟩
  · simp only [handleSend]
    simp [hguard]
    rw [show (prior
        ++ [({ id := uid, role := .user,
               content := if input = "" then "(Screenshot attached)" else input,
               imageUrl := if image then some blobUrl else none,
               storageFileId := none } : Entry),
            ({ id := uid + 1, role := .assistant, content := "",
               imageUrl := none, storageFileId := none } : Entry)])
      = (prior
        ++ [({ id := uid, role := .user,
               content := if input = "" then "(Screenshot attached)" else input,
               imageUrl := if image then some blobUrl else none,
               storageFileId := none } : Entry)])
        ++ [({ id := uid + 1, role := .assistant, content := "",
               imageUrl := none, storageFileId := none } : Entry)] by simp]
    rw [happly, hrepl]
    simp
  · cases writerExists with
    | true => simp [handleSend, hguard, rowsCreated]
    | false =>
      cases initialMessage with
      | none => simp [handleSend, hguard, rowsCreated]
      | some m => simp [handleSend, hguard, rowsCreated]
  · intro r c
    cases writerExists with
    | true => simp [handleSend, hguard]
    | false =>
      cases initialMessage with
      | none => simp [handleSend, hguard]
      | some m => simp [handleSend, hguard]

theorem C2_persist_failure_keeps_transcript_witness :
    (handleSend [] "hi" true "blob:1" true none 10
        (.success ["a", "b"]) (.error "store down") (.ok ⟨none, none⟩)).messages
      = []
        ++ [{ id := 10, role := .user,
              content := if "hi" = "" then "(Screenshot attached)" else "hi",
              imageUrl := if true then some "blob:1" else none,
              storageFileId := none },
            { id := 10 + 1, role := .assistant,
              content := chunksConcat ["a", "b"],
              imageUrl := none, storageFileId := none }]
    ∧ (handleSend [] "hi" true "blob:1" true none 10
        (.success ["a", "b"]) (.error "store down") (.ok ⟨none, none⟩)).log
      = ["Failed to persist messages: " ++ "store down"] :=
  C2_persist_failure_keeps_transcript [] "hi" true "blob:1" true none 10
    ["a", "b"] (.error "store down") (.ok ⟨none, none⟩) "store down"
    (by simp) (by simp) (Or.inl rfl)

theorem C4_user_row_before_assistant_row_witness :
    rowsCreated (handleSend [] "hi" true "blob:1" true none 10
        (.success ["a"]) (.ok ⟨none, none⟩) (.ok ⟨none, none⟩)).ops
      = [(Role.user, if "hi" = "" then "(Screenshot attached)" else "hi"),
         (Role.assistant, chunksConcat ["a"])]
    ∧ ∃ i j k : Nat, i < j ∧ j < k
        ∧ (handleSend [] "hi" true "blob:1" true none 10
            (.success ["a"]) (.ok ⟨none, none⟩) (.ok ⟨none, none⟩)).ops[i]?
          = some (.rowCreated .user
              (if "hi" = "" then "(Screenshot attached)" else "hi"))
        ∧ (handleSend [] "hi" true "blob:1" true none 10
            (.success ["a"]) (.ok ⟨none, none⟩) (.ok ⟨none, none⟩)).ops[j]?
          = some (.saveStarted .assistant (chunksConcat ["a"]))
        ∧ (handleSend [] "hi" true "blob:1" true none 10
            (.success ["a"]) (.ok ⟨none, none⟩) (.ok ⟨none, none⟩)).ops[k]?
          = some (.rowCreated .assistant (chunksConcat ["a"])) :=
  C4_user_row_before_assistant_row [] "hi" true "blob:1" true none 10
    ["a"] ⟨none, none⟩ ⟨none, none⟩ (by simp)

theorem C7_stream_failure_shows_diagnostic_witness :
    (handleSend [] "hi" true "blob:1" true none 10
        (.failure [] "refused") (.ok ⟨none, none⟩) (.ok ⟨none, none⟩)).messages
      = []
        ++ [{ id := 10, role := .user,
              content := if "hi" = "" then "(Screenshot attached)" else "hi",
              imageUrl := if true then some "blob:1" else none,
              storageFileId := none },
            { id := 10 + 1, role := .assistant,
              content := connectionErrorText,
              imageUrl := none, storageFileId := none }]
    ∧ rowsCreated (handleSend [] "hi" true "blob:1" true none 10
        (.failure [] "refused") (.ok ⟨none, none⟩) (.ok ⟨none, none⟩)).ops = []
    ∧ ∀ (r : Role) (c : String),
        OrchOp.saveStarted r c
          ∉ (handleSend [] "hi" true "blob:1" true none 10
              (.failure [] "refused") (.ok ⟨none, none⟩)
              (.ok ⟨none, none⟩)).ops :=
  C7_stream_failure_shows_diagnostic [] "hi" true "blob:1" true none 10
    [] "refused" (.ok ⟨none, none⟩) (.ok ⟨none, none⟩) (by simp) (by simp)

end MockClient
